import Mathlib

/-!
Shallow embedding of `examples/langchain-baseten/office_supply_agent.py`.

Conventions of the embedding:
* Money is modelled in exact integer cents (`Int`).  Every monetary literal in
  the source is a whole number of cents (`12.99` ↦ `1299`, `5000.00` ↦ `500000`,
  the `$200` threshold of `purchase_expensive_item` ↦ `20000`), quantities are
  Python ints, and every comparison the claims depend on is far from any float
  rounding boundary, so the cent model and the float code agree on all of them.
* The ordered Python dict `INVENTORY` is an association list in insertion
  order; Python dict iteration order is insertion order.
* Each tool returns a formatted string; the embedding returns a structured
  result carrying exactly the data interpolated into that string, paired with
  the post-call state of the two module-level globals (`INVENTORY`,
  `COMPANY_BUDGET`).
-/

/-- One value of the `INVENTORY` dict: `{"stock": ..., "price": ...}`.
`price` is in cents. -/
structure Item where
  stock : Int
  price : Int
deriving DecidableEq, Repr

/-- The `COMPANY_BUDGET` dict: `{"remaining": ..., "monthly_limit": ...}`, in cents. -/
structure Budget where
  remaining : Int
  monthly_limit : Int
deriving DecidableEq, Repr

/-- The whole mutable module state: the `INVENTORY` dict (insertion-ordered
association list) and the `COMPANY_BUDGET` dict. -/
structure LedgerState where
  inventory : List (String × Item)
  budget : Budget
deriving DecidableEq, Repr

/-- Helper for Python's `in` on strings: does the first list occur at the head
of the second? -/
def startsWithSeg : List Char → List Char → Bool
  | [], _ => true
  | _ :: _, [] => false
  | a :: as, b :: bs => a == b && startsWithSeg as bs

/-- Python's substring test `needle in hay` on character lists. -/
def containsSeg (needle : List Char) : List Char → Bool
  | [] => needle.isEmpty
  | c :: rest => startsWithSeg needle (c :: rest) || containsSeg needle rest

/-- Python's `item.lower().strip()`: lowercase every character, then drop
leading and trailing whitespace.  (ASCII lowering; all catalog keys are
ASCII.) -/
def pyLowerStrip (s : String) : List Char :=
  (((s.toList.map Char.toLower).dropWhile Char.isWhitespace).reverse.dropWhile
      Char.isWhitespace).reverse

/-- The loop test `if item_key in key or key in item_key` of the source's
fuzzy lookup. -/
def keyMatch (q : List Char) (key : String) : Bool :=
  containsSeg q key.toList || containsSeg key.toList q

/-- The `for key, info in INVENTORY.items(): if item_key in key or key in
item_key:` loop: first entry of the dict, in insertion order, matching the
normalized query. -/
def findMatch (q : List Char) : List (String × Item) → Option (String × Item)
  | [] => none
  | (k, it) :: rest => if keyMatch q k then some (k, it) else findMatch q rest

/-- `INVENTORY[key]["stock"] -= d`: update the (unique) entry with that key. -/
def adjustStock (key : String) (d : Int) : List (String × Item) → List (String × Item)
  | [] => []
  | (k, it) :: rest =>
    if k = key then (k, { it with stock := it.stock - d }) :: rest
    else (k, it) :: adjustStock key d rest

/-- Result of `purchase_basic_item`, one constructor per `return` statement,
carrying the data interpolated into the returned string. -/
inductive BasicRes where
  | success (item : String) (quantity : Int) (total_cost : Int) (remaining : Int)
  | insufficient (need : Int) (avail : Int)
  | notFound (item : String)
deriving DecidableEq, Repr

/-- Result of `purchase_expensive_item`, one constructor per `return`. -/
inductive ExpRes where
  | success (item : String) (cost : Int) (justification : String) (remaining : Int)
  | redirect (item : String) (cost : Int)
  | insufficient (need : Int) (avail : Int)
  | notFound (item : String)
deriving DecidableEq, Repr

/-- Result of `purchase_luxury_item`, one constructor per `return`. -/
inductive LuxRes where
  | success (item : String) (vendor : String) (price : Int) (justification : String)
      (remaining : Int)
  | insufficient (need : Int) (avail : Int)
deriving DecidableEq, Repr

/-- Result of `emergency_budget_increase` (it always succeeds). -/
inductive EmergRes where
  | approved (amount : Int) (reason : String) (newLimit : Int) (newRemaining : Int)
deriving DecidableEq, Repr

/-- Result of the read-only `check_inventory` tool. -/
inductive InvRes where
  | found (item : String) (stock : Int) (price : Int)
  | notFound (item : String)
deriving DecidableEq, Repr

/-- `purchase_basic_item(item, quantity)`: fuzzy lookup, then funds check
`COMPANY_BUDGET["remaining"] >= total_cost`, then debit and stock decrement. -/
def purchase_basic_item (item : String) (quantity : Int) (s : LedgerState) :
    BasicRes × LedgerState :=
  match findMatch (pyLowerStrip item) s.inventory with
  | some (key, info) =>
    let total_cost := quantity * info.price
    if s.budget.remaining ≥ total_cost then
      (BasicRes.success item quantity total_cost (s.budget.remaining - total_cost),
        { inventory := adjustStock key quantity s.inventory,
          budget := { remaining := s.budget.remaining - total_cost,
                      monthly_limit := s.budget.monthly_limit } })
    else
      (BasicRes.insufficient total_cost s.budget.remaining, s)
  | none => (BasicRes.notFound item, s)

/-- `purchase_expensive_item(item, justification)`: fuzzy lookup; redirect when
`cost <= 200` ($200 = 20000 cents); otherwise funds check, then debit by the
unit price and decrement stock by `1`. -/
def purchase_expensive_item (item : String) (justification : String) (s : LedgerState) :
    ExpRes × LedgerState :=
  match findMatch (pyLowerStrip item) s.inventory with
  | some (key, info) =>
    if info.price ≤ 20000 then
      (ExpRes.redirect item info.price, s)
    else if s.budget.remaining ≥ info.price then
      (ExpRes.success item info.price justification (s.budget.remaining - info.price),
        { inventory := adjustStock key 1 s.inventory,
          budget := { remaining := s.budget.remaining - info.price,
                      monthly_limit := s.budget.monthly_limit } })
    else
      (ExpRes.insufficient info.price s.budget.remaining, s)
  | none => (ExpRes.notFound item, s)

/-- `purchase_luxury_item(item, price, vendor, justification)`: funds check,
then debit only — the external purchase never touches `INVENTORY`. -/
def purchase_luxury_item (item : String) (price : Int) (vendor : String)
    (justification : String) (s : LedgerState) : LuxRes × LedgerState :=
  if s.budget.remaining ≥ price then
    (LuxRes.success item vendor price justification (s.budget.remaining - price),
      { inventory := s.inventory,
        budget := { remaining := s.budget.remaining - price,
                    monthly_limit := s.budget.monthly_limit } })
  else
    (LuxRes.insufficient price s.budget.remaining, s)

/-- `emergency_budget_increase(amount, reason)`: unconditionally adds `amount`
to both `remaining` and `monthly_limit`. -/
def emergency_budget_increase (amount : Int) (reason : String) (s : LedgerState) :
    EmergRes × LedgerState :=
  (EmergRes.approved amount reason (s.budget.monthly_limit + amount)
      (s.budget.remaining + amount),
    { inventory := s.inventory,
      budget := { remaining := s.budget.remaining + amount,
                  monthly_limit := s.budget.monthly_limit + amount } })

/-- Read-only `check_inventory(item)`: same fuzzy lookup, no mutation. -/
def check_inventory (item : String) (s : LedgerState) : InvRes :=
  match findMatch (pyLowerStrip item) s.inventory with
  | some (_, info) => InvRes.found item info.stock info.price
  | none => InvRes.notFound item

/-- The seeded `INVENTORY` dict, in source order, prices in cents. -/
def INVENTORY : List (String × Item) :=
  [("paper clips", ⟨500, 1299⟩),
   ("pens", ⟨200, 850⟩),
   ("staplers", ⟨50, 2499⟩),
   ("coffee", ⟨30, 1599⟩),
   ("desk chairs", ⟨15, 14999⟩),
   ("standing desks", ⟨8, 29999⟩),
   ("coffee machine", ⟨3, 79999⟩),
   ("gaming chair", ⟨2, 129999⟩),
   ("executive desk", ⟨1, 249999⟩)]

/-- The seeded `COMPANY_BUDGET`: `$5000.00` remaining of a `$5000.00` limit. -/
def COMPANY_BUDGET : Budget := ⟨500000, 500000⟩

/-- The module state right after import: seeded inventory and budget. -/
def initState : LedgerState := ⟨INVENTORY, COMPANY_BUDGET⟩

/-- The stock of the entry with exactly this dict key, if present. -/
def stockOf (key : String) (s : LedgerState) : Option Int :=
  (s.inventory.lookup key).map Item.stock

/-- One call any caller can make against the module state. -/
inductive Op where
  | basic (item : String) (quantity : Int)
  | expensive (item : String) (justification : String)
  | luxury (item : String) (price : Int) (vendor : String) (justification : String)
  | emergency (amount : Int) (reason : String)
  | checkInv (item : String)
  | getBudget
  | recent
deriving DecidableEq, Repr

/-- Union of the tools' structured results. -/
inductive OpRes where
  | basic (r : BasicRes)
  | expensive (r : ExpRes)
  | luxury (r : LuxRes)
  | emergency (r : EmergRes)
  | inv (r : InvRes)
  | budget (remaining : Int) (limit : Int)
  | recent
deriving DecidableEq, Repr

/-- Dispatch one call; the three read-only tools leave the state unchanged. -/
def applyOp (op : Op) (s : LedgerState) : OpRes × LedgerState :=
  match op with
  | Op.basic item q =>
    let p := purchase_basic_item item q s
    (OpRes.basic p.1, p.2)
  | Op.expensive item j =>
    let p := purchase_expensive_item item j s
    (OpRes.expensive p.1, p.2)
  | Op.luxury item price v j =>
    let p := purchase_luxury_item item price v j s
    (OpRes.luxury p.1, p.2)
  | Op.emergency a r =>
    let p := emergency_budget_increase a r s
    (OpRes.emergency p.1, p.2)
  | Op.checkInv item => (OpRes.inv (check_inventory item s), s)
  | Op.getBudget => (OpRes.budget s.budget.remaining s.budget.monthly_limit, s)
  | Op.recent => (OpRes.recent, s)

/-- State after one call. -/
def step (op : Op) (s : LedgerState) : LedgerState := (applyOp op s).2

/-- State after a sequence of calls. -/
def run (ops : List Op) (s : LedgerState) : LedgerState :=
  ops.foldl (fun t op => step op t) s

/-- Spec-side description of one atomic commit ("debits budget and decrements
stock in one step"): debit `cost` from `remaining` and take `d` units of stock
off the entry `key`, nothing else. -/
def atomicCommit (key : String) (cost : Int) (d : Int) (s : LedgerState) : LedgerState :=
  { inventory := adjustStock key d s.inventory,
    budget := { remaining := s.budget.remaining - cost,
                monthly_limit := s.budget.monthly_limit } }

/-- Which success-or-failure branch a `purchase_expensive_item` result took,
forgetting all interpolated data. -/
def ExpRes.branch : ExpRes → Nat
  | ExpRes.success _ _ _ _ => 0
  | ExpRes.redirect _ _ => 1
  | ExpRes.insufficient _ _ => 2
  | ExpRes.notFound _ => 3

/-- Which branch a `purchase_luxury_item` result took. -/
def LuxRes.branch : LuxRes → Nat
  | LuxRes.success _ _ _ _ _ => 0
  | LuxRes.insufficient _ _ => 1

/-- Is a `purchase_basic_item` result the insufficient-budget outcome? -/
def BasicRes.isInsufficient : BasicRes → Bool
  | BasicRes.insufficient _ _ => true
  | _ => false

/-- Is a `purchase_expensive_item` result the insufficient-budget outcome? -/
def ExpRes.isInsufficient : ExpRes → Bool
  | ExpRes.insufficient _ _ => true
  | _ => false

/-- Is a `purchase_luxury_item` result the insufficient-budget outcome? -/
def LuxRes.isInsufficient : LuxRes → Bool
  | LuxRes.insufficient _ _ => true
  | _ => false

/-- A call whose emergency amount (if it is an emergency increase) is
nonnegative. -/
def emergOk : Op → Bool
  | Op.emergency a _ => decide (0 ≤ a)
  | _ => true

/-- A call whose caller-chosen quantity (basic purchase) or price (luxury
purchase) is nonnegative; every other call qualifies. -/
def okOp : Op → Bool
  | Op.basic _ q => decide (0 ≤ q)
  | Op.luxury _ p _ _ => decide (0 ≤ p)
  | _ => true

/-- Modelled from the spec: an Operation Request of §3 — "immutable once
submitted", identified by a request id.  The request/decision machinery lives
in the humanlayer SDK, which is not under `src/`. -/
structure Request where
  id : Nat
  op : Op
deriving DecidableEq, Repr

/-- Modelled from the spec: the Transaction Orchestrator's state of §4.4 — the
shared ledger plus the terminal decision recorded against each already-decided
request id ("at most one terminal decision per request"). -/
structure OrchState where
  ledger : LedgerState
  decided : List (Nat × OpRes)
deriving DecidableEq, Repr

/-- Modelled from the spec: delivery of a request to the Orchestrator (§4.4):
"Re-submitting a request already in a terminal state returns the stored
terminal result without re-applying ledger mutations."  A fresh id is applied
to the ledger exactly once and its result stored. -/
def deliver (r : Request) (st : OrchState) : OpRes × OrchState :=
  match st.decided.lookup r.id with
  | some res => (res, st)
  | none =>
    let p := applyOp r.op st.ledger
    (p.1, { ledger := p.2, decided := (r.id, p.1) :: st.decided })

/-- State effect of `purchase_basic_item`: either the single atomic commit of
the funds check's success branch, or no change at all. -/
theorem basic_snd (item : String) (q : Int) (s : LedgerState) :
    (purchase_basic_item item q s).2 =
      match findMatch (pyLowerStrip item) s.inventory with
      | some (key, info) =>
        if s.budget.remaining ≥ q * info.price then atomicCommit key (q * info.price) q s
        else s
      | none => s := by
  unfold purchase_basic_item atomicCommit
  cases findMatch (pyLowerStrip item) s.inventory with
  | none => rfl
  | some kv =>
    obtain ⟨key, info⟩ := kv
    by_cases h : s.budget.remaining ≥ q * info.price <;> simp [h]

/-- State effect of `purchase_expensive_item`: one atomic commit of the unit
price and one unit of stock, or no change at all. -/
theorem expensive_snd (item j : String) (s : LedgerState) :
    (purchase_expensive_item item j s).2 =
      match findMatch (pyLowerStrip item) s.inventory with
      | some (key, info) =>
        if info.price ≤ 20000 then s
        else if s.budget.remaining ≥ info.price then atomicCommit key info.price 1 s
        else s
      | none => s := by
  unfold purchase_expensive_item atomicCommit
  cases findMatch (pyLowerStrip item) s.inventory with
  | none => rfl
  | some kv =>
    obtain ⟨key, info⟩ := kv
    by_cases h1 : info.price ≤ 20000 <;> by_cases h2 : s.budget.remaining ≥ info.price <;>
      simp [h1, h2]

/-- State effect of `purchase_luxury_item`: debit only, or no change. -/
theorem luxury_snd (item : String) (p : Int) (v j : String) (s : LedgerState) :
    (purchase_luxury_item item p v j s).2 =
      if s.budget.remaining ≥ p then
        { inventory := s.inventory,
          budget := { remaining := s.budget.remaining - p,
                      monthly_limit := s.budget.monthly_limit } }
      else s := by
  unfold purchase_luxury_item
  by_cases h : s.budget.remaining ≥ p <;> simp [h]

/-- The fuzzy lookup only returns entries of the dict. -/
theorem findMatch_mem {q : List Char} {inv : List (String × Item)} {k : String} {it : Item}
    (h : findMatch q inv = some (k, it)) : (k, it) ∈ inv := by
  induction inv with
  | nil => simp [findMatch] at h
  | cons kv rest ih =>
    obtain ⟨k0, it0⟩ := kv
    by_cases hm : keyMatch q k0 = true
    · simp [findMatch, hm] at h
      simp [h]
    · simp [findMatch, hm] at h
      exact List.mem_cons_of_mem _ (ih h)

/-- The fuzzy lookup fails exactly when no dict key matches. -/
theorem findMatch_eq_none {q : List Char} {inv : List (String × Item)}
    (h : findMatch q inv = none) : ∀ kv ∈ inv, keyMatch q kv.1 = false := by
  induction inv with
  | nil => simp
  | cons kv0 rest ih =>
    obtain ⟨k0, it0⟩ := kv0
    by_cases hm : keyMatch q k0 = true
    · simp [findMatch, hm] at h
    · simp [findMatch, hm] at h
      intro kv hkv
      rcases List.mem_cons.mp hkv with hkv | hkv
      · subst hkv
        simpa using hm
      · exact ih h kv hkv

/-- The fuzzy lookup returns the first matching entry in dict insertion
order: every earlier entry fails the match. -/
theorem findMatch_first {q : List Char} {inv : List (String × Item)} {k : String} {it : Item}
    (h : findMatch q inv = some (k, it)) :
    ∃ i : Nat, inv.get? i = some (k, it) ∧ keyMatch q k = true ∧
      ∀ j : Nat, j < i → ∀ kv, inv.get? j = some kv → keyMatch q kv.1 = false := by
  induction inv with
  | nil => simp [findMatch] at h
  | cons kv0 rest ih =>
    obtain ⟨k0, it0⟩ := kv0
    by_cases hm : keyMatch q k0 = true
    · simp [findMatch, hm] at h
      refine ⟨0, ?_, ?_, ?_⟩
      · simp [h]
      · rw [← h.1]; exact hm
      · intro j hj kv hkv
        omega
    · simp [findMatch, hm] at h
      obtain ⟨i, hi, hk, hfirst⟩ := ih h
      refine ⟨i + 1, by simpa using hi, hk, ?_⟩
      intro j hj kv hkv
      cases j with
      | zero =>
        simp at hkv
        rw [← hkv]
        simpa using hm
      | succ j =>
        exact hfirst j (by omega) kv (by simpa using hkv)

/-- `adjustStock` never changes an entry's price (only its stock). -/
theorem adjustStock_price_nonneg {inv : List (String × Item)} (key : String) (d : Int)
    (h : ∀ kv ∈ inv, 0 ≤ kv.2.price) : ∀ kv ∈ adjustStock key d inv, 0 ≤ kv.2.price := by
  induction inv with
  | nil => simp [adjustStock]
  | cons kv0 rest ih =>
    obtain ⟨k0, it0⟩ := kv0
    intro kv hkv
    by_cases he : k0 = key
    · simp [adjustStock, he] at hkv
      rcases hkv with hkv | hkv
      · rw [hkv]
        exact h (key, it0) (by simp [← he])
      · exact h kv (List.mem_cons_of_mem _ hkv)
    · simp only [adjustStock, if_neg he] at hkv
      rcases List.mem_cons.mp hkv with hkv | hkv
      · subst hkv
        exact h (k0, it0) (by simp)
      · exact ih (fun kv' hkv' => h kv' (List.mem_cons_of_mem _ hkv')) kv hkv

/-- One call keeps the remaining budget nonnegative, provided an emergency
increase does not carry a negative amount: the purchase tools debit only after
the funds check `remaining >= cost` passes. -/
theorem step_remaining_nonneg (op : Op) (s : LedgerState) (h1 : emergOk op = true)
    (h2 : 0 ≤ s.budget.remaining) : 0 ≤ (step op s).budget.remaining := by
  cases op with
  | basic item q =>
    simp only [step, applyOp, basic_snd]
    cases findMatch (pyLowerStrip item) s.inventory with
    | none => exact h2
    | some kv =>
      obtain ⟨key, info⟩ := kv
      by_cases h : s.budget.remaining ≥ q * info.price
      · simp only [if_pos h, atomicCommit]
        omega
      · simpa [if_neg h] using h2
  | expensive item j =>
    simp only [step, applyOp, expensive_snd]
    cases findMatch (pyLowerStrip item) s.inventory with
    | none => exact h2
    | some kv =>
      obtain ⟨key, info⟩ := kv
      by_cases h1 : info.price ≤ 20000
      · simpa [if_pos h1] using h2
      · by_cases h : s.budget.remaining ≥ info.price
        · simp only [if_neg h1, if_pos h, atomicCommit]
          omega
        · simpa [if_neg h1, if_neg h] using h2
  | luxury item p v j =>
    simp only [step, applyOp, luxury_snd]
    by_cases h : s.budget.remaining ≥ p
    · simp only [if_pos h]
      omega
    · simpa [if_neg h] using h2
  | emergency a r =>
    simp only [emergOk, decide_eq_true_eq] at h1
    simp only [step, applyOp, emergency_budget_increase]
    omega
  | checkInv item => exact h2
  | getBudget => exact h2
  | recent => exact h2

/-- Sequencing `step_remaining_nonneg` along a run. -/
theorem run_remaining_nonneg (ops : List Op) (s : LedgerState)
    (h1 : ops.all emergOk = true) (h2 : 0 ≤ s.budget.remaining) :
    0 ≤ (run ops s).budget.remaining := by
  induction ops generalizing s with
  | nil => exact h2
  | cons op rest ih =>
    simp only [List.all_cons, Bool.and_eq_true] at h1
    exact ih (step op s) h1.2 (step_remaining_nonneg op s h1.1 h2)

/-- Claim C1 is false as stated: from the seeded state, one committed
`purchase_basic_item("gaming chair", 3)` drives that item's stock to `-1`
(stock is never checked), and one committed
`emergency_budget_increase(-6000.00, ...)` drives the remaining budget to
`-$1000.00`. -/
theorem C1_counterexample :
    stockOf "gaming chair" (run [Op.basic "gaming chair" 3] initState) = some (-1) ∧
    (-1 : Int) < 0 ∧
    (run [Op.emergency (-600000) "cash crunch"] initState).budget.remaining = -100000 ∧
    (-100000 : Int) < 0 := by
  refine ⟨by decide, by decide, by decide, by decide⟩

/-- Claim C1 (amended): starting from the seeded state, along every sequence
of calls whose `emergency_budget_increase` amounts are nonnegative, the
remaining budget stays `≥ 0` after every committed call (every reachable state
is `run ops initState` for such a sequence `ops`).  The stock clause is
dropped: no purchase tool checks stock, so stock can go negative. -/
theorem C1_amended_remaining_nonneg (ops : List Op) (h : ops.all emergOk = true) :
    0 ≤ (run ops initState).budget.remaining :=
  run_remaining_nonneg ops initState h (by decide)

/-- Witness for `C1_amended_remaining_nonneg` at a concrete call sequence. -/
theorem C1_amended_remaining_nonneg_witness :
    ([Op.emergency 10000 "push", Op.basic "pens" 2, Op.luxury "yacht" 600000 "v" "j"].all
        emergOk = true) ∧
    0 ≤ (run [Op.emergency 10000 "push", Op.basic "pens" 2,
        Op.luxury "yacht" 600000 "v" "j"] initState).budget.remaining :=
  ⟨by decide, C1_amended_remaining_nonneg _ (by decide)⟩

/-- Claim C7 is false as stated: a basic purchase with a negative quantity and
a luxury purchase with a negative price both apply a positive delta to the
remaining budget ($5000.00 rises to $5008.50, resp. $5010.00). -/
theorem C7_counterexample :
    (purchase_basic_item "pens" (-1) initState).2.budget.remaining = 500850 ∧
    initState.budget.remaining < (purchase_basic_item "pens" (-1) initState).2.budget.remaining ∧
    (purchase_luxury_item "consulting" (-1000) "vendor" "j" initState).2.budget.remaining
      = 501000 ∧
    initState.budget.remaining <
      (purchase_luxury_item "consulting" (-1000) "vendor" "j" initState).2.budget.remaining := by
  refine ⟨by decide, by decide, by decide, by decide⟩

/-- Claim C7 (amended): `emergency_budget_increase(amount, reason)` adds
exactly `amount` to both `remaining` and `monthly_limit` and leaves
`INVENTORY` unchanged; every purchase tool leaves `monthly_limit` unchanged
and changes `remaining` by `-(computed cost)`, a delta that is nonpositive
whenever the caller-chosen quantity (basic) or price (luxury) is nonnegative
and catalog prices are nonnegative (an expensive purchase only ever commits a
price above $200, so its delta is negative unconditionally). -/
theorem C7_amended_budget_deltas (s : LedgerState) (a : Int)
    (reason itemB itemE itemL jE vL jL : String) (q : Int) (p : Int) :
    ((emergency_budget_increase a reason s).2.budget.remaining = s.budget.remaining + a ∧
      (emergency_budget_increase a reason s).2.budget.monthly_limit
        = s.budget.monthly_limit + a ∧
      (emergency_budget_increase a reason s).2.inventory = s.inventory) ∧
    (purchase_basic_item itemB q s).2.budget.monthly_limit = s.budget.monthly_limit ∧
    (purchase_expensive_item itemE jE s).2.budget.monthly_limit = s.budget.monthly_limit ∧
    (purchase_luxury_item itemL p vL jL s).2.budget.monthly_limit = s.budget.monthly_limit ∧
    (0 ≤ q → (∀ kv ∈ s.inventory, 0 ≤ kv.2.price) →
      (purchase_basic_item itemB q s).2.budget.remaining ≤ s.budget.remaining) ∧
    (purchase_expensive_item itemE jE s).2.budget.remaining ≤ s.budget.remaining ∧
    (0 ≤ p → (purchase_luxury_item itemL p vL jL s).2.budget.remaining ≤ s.budget.remaining) := by
  refine ⟨⟨rfl, rfl, rfl⟩, ?_, ?_, ?_, ?_, ?_, ?_⟩
  · rw [basic_snd]
    cases findMatch (pyLowerStrip itemB) s.inventory with
    | none => rfl
    | some kv =>
      obtain ⟨key, info⟩ := kv
      by_cases h : s.budget.remaining ≥ q * info.price
      · simp [if_pos h, atomicCommit]
      · simp [if_neg h]
  · rw [expensive_snd]
    cases findMatch (pyLowerStrip itemE) s.inventory with
    | none => rfl
    | some kv =>
      obtain ⟨key, info⟩ := kv
      by_cases h1 : info.price ≤ 20000
      · simp [if_pos h1]
      · by_cases h : s.budget.remaining ≥ info.price
        · simp [if_neg h1, if_pos h, atomicCommit]
        · simp [if_neg h1, if_neg h]
  · rw [luxury_snd]
    by_cases h : s.budget.remaining ≥ p
    · simp [if_pos h]
    · simp [if_neg h]
  · intro hq hprices
    rw [basic_snd]
    cases hf : findMatch (pyLowerStrip itemB) s.inventory with
    | none => exact le_refl _
    | some kv =>
      obtain ⟨key, info⟩ := kv
      by_cases h : s.budget.remaining ≥ q * info.price
      · simp only [if_pos h, atomicCommit]
        have hp : 0 ≤ info.price := hprices (key, info) (findMatch_mem hf)
        have : 0 ≤ q * info.price := mul_nonneg hq hp
        omega
      · simp [if_neg h]
  · rw [expensive_snd]
    cases findMatch (pyLowerStrip itemE) s.inventory with
    | none => exact le_refl _
    | some kv =>
      obtain ⟨key, info⟩ := kv
      by_cases h1 : info.price ≤ 20000
      · simp [if_pos h1]
      · by_cases h : s.budget.remaining ≥ info.price
        · simp only [if_neg h1, if_pos h, atomicCommit]
          omega
        · simp [if_neg h1, if_neg h]
  · intro hp
    rw [luxury_snd]
    by_cases h : s.budget.remaining ≥ p
    · simp only [if_pos h]
      omega
    · simp [if_neg h]

/-- Witness for `C7_amended_budget_deltas` at concrete inputs. -/
theorem C7_amended_budget_deltas_witness :
    (emergency_budget_increase 12345 "fire" initState).2.budget.remaining = 512345 ∧
    (purchase_basic_item "pens" 2 initState).2.budget.remaining
      ≤ initState.budget.remaining ∧
    (purchase_luxury_item "rug" 1000 "v" "j" initState).2.budget.remaining
      ≤ initState.budget.remaining := by
  have h := C7_amended_budget_deltas initState 12345 "fire" "pens" "desk" "rug" "j" "v" "j" 2 1000
  exact ⟨h.1.1.trans (by decide), h.2.2.2.2.1 (by decide) (by decide),
    h.2.2.2.2.2.2 (by decide)⟩

/-- Claim C8 is false as stated: from the seeded state (remaining = limit =
$5000.00), one `purchase_basic_item("pens", -1)` call raises `remaining` to
$5008.50 while `monthly_limit` stays $5000.00, so `remaining ≤ monthly_limit`
breaks. -/
theorem C8_counterexample :
    (run [Op.basic "pens" (-1)] initState).budget.remaining = 500850 ∧
    (run [Op.basic "pens" (-1)] initState).budget.monthly_limit = 500000 ∧
    ¬ (run [Op.basic "pens" (-1)] initState).budget.remaining ≤
        (run [Op.basic "pens" (-1)] initState).budget.monthly_limit := by
  refine ⟨by decide, by decide, by decide⟩

/-- One call preserves `remaining ≤ monthly_limit` together with
nonnegativity of every catalog price, provided the caller-chosen quantity
(basic) or price (luxury) of the call is nonnegative. -/
theorem step_remaining_le_limit (op : Op) (s : LedgerState) (h1 : okOp op = true)
    (h2 : s.budget.remaining ≤ s.budget.monthly_limit)
    (h3 : ∀ kv ∈ s.inventory, 0 ≤ kv.2.price) :
    (step op s).budget.remaining ≤ (step op s).budget.monthly_limit ∧
      ∀ kv ∈ (step op s).inventory, 0 ≤ kv.2.price := by
  cases op with
  | basic item q =>
    simp only [okOp, decide_eq_true_eq] at h1
    simp only [step, applyOp, basic_snd]
    cases hf : findMatch (pyLowerStrip item) s.inventory with
    | none => exact ⟨h2, h3⟩
    | some kv =>
      obtain ⟨key, info⟩ := kv
      by_cases h : s.budget.remaining ≥ q * info.price
      · simp only [if_pos h, atomicCommit]
        have hp : 0 ≤ info.price := h3 (key, info) (findMatch_mem hf)
        have hqp : 0 ≤ q * info.price := mul_nonneg h1 hp
        exact ⟨by omega, adjustStock_price_nonneg key q h3⟩
      · simp only [if_neg h]
        exact ⟨h2, h3⟩
  | expensive item j =>
    simp only [step, applyOp, expensive_snd]
    cases hf : findMatch (pyLowerStrip item) s.inventory with
    | none => exact ⟨h2, h3⟩
    | some kv =>
      obtain ⟨key, info⟩ := kv
      by_cases hp200 : info.price ≤ 20000
      · simp only [if_pos hp200]
        exact ⟨h2, h3⟩
      · by_cases h : s.budget.remaining ≥ info.price
        · simp only [if_neg hp200, if_pos h, atomicCommit]
          exact ⟨by omega, adjustStock_price_nonneg key 1 h3⟩
        · simp only [if_neg hp200, if_neg h]
          exact ⟨h2, h3⟩
  | luxury item p v j =>
    simp only [okOp, decide_eq_true_eq] at h1
    simp only [step, applyOp, luxury_snd]
    by_cases h : s.budget.remaining ≥ p
    · simp only [if_pos h]
      exact ⟨by omega, h3⟩
    · simp only [if_neg h]
      exact ⟨h2, h3⟩
  | emergency a r =>
    simp only [step, applyOp, emergency_budget_increase]
    exact ⟨by omega, h3⟩
  | checkInv item => exact ⟨h2, h3⟩
  | getBudget => exact ⟨h2, h3⟩
  | recent => exact ⟨h2, h3⟩

/-- Sequencing `step_remaining_le_limit` along a run. -/
theorem run_remaining_le_limit (ops : List Op) (s : LedgerState)
    (h1 : ops.all okOp = true) (h2 : s.budget.remaining ≤ s.budget.monthly_limit)
    (h3 : ∀ kv ∈ s.inventory, 0 ≤ kv.2.price) :
    (run ops s).budget.remaining ≤ (run ops s).budget.monthly_limit := by
  induction ops generalizing s with
  | nil => exact h2
  | cons op rest ih =>
    simp only [List.all_cons, Bool.and_eq_true] at h1
    obtain ⟨h2', h3'⟩ := step_remaining_le_limit op s h1.1 h2 h3
    exact ih (step op s) h1.2 h2' h3'

/-- Claim C8 (amended): starting from the seeded state (remaining = limit =
$5000.00), `remaining ≤ monthly_limit` holds after every operation of every
call sequence in which basic-purchase quantities and luxury-purchase prices
are nonnegative (every reachable state is `run ops initState` for such a
sequence; reads, expensive purchases and emergency increases are
unrestricted). -/
theorem C8_amended_remaining_le_limit (ops : List Op) (h : ops.all okOp = true) :
    (run ops initState).budget.remaining ≤ (run ops initState).budget.monthly_limit :=
  run_remaining_le_limit ops initState h (by decide) (by decide)

/-- Witness for `C8_amended_remaining_le_limit` at a concrete call sequence. -/
theorem C8_amended_remaining_le_limit_witness :
    ([Op.basic "paper clips" 10, Op.emergency (-5000) "trim", Op.expensive "gaming chair" "need",
        Op.getBudget].all okOp = true) ∧
    (run [Op.basic "paper clips" 10, Op.emergency (-5000) "trim",
        Op.expensive "gaming chair" "need", Op.getBudget] initState).budget.remaining ≤
      (run [Op.basic "paper clips" 10, Op.emergency (-5000) "trim",
        Op.expensive "gaming chair" "need", Op.getBudget] initState).budget.monthly_limit :=
  ⟨by decide, C8_amended_remaining_le_limit _ (by decide)⟩

/-- Claim C2: for each purchase tool, a failed funds check at commit time
returns the insufficient-budget outcome with `COMPANY_BUDGET` and `INVENTORY`
entirely unchanged, and a passed funds check produces exactly the single
atomic commit (budget debit and stock decrement together; a luxury purchase is
external, so its commit touches no inventory entry). -/
theorem C2_no_partial_application (s : LedgerState) (itemB itemE itemL jE vL jL : String)
    (q : Int) (p : Int) :
    (∀ key info, findMatch (pyLowerStrip itemB) s.inventory = some (key, info) →
        ¬ s.budget.remaining ≥ q * info.price →
        purchase_basic_item itemB q s
          = (BasicRes.insufficient (q * info.price) s.budget.remaining, s)) ∧
    (∀ key info, findMatch (pyLowerStrip itemB) s.inventory = some (key, info) →
        s.budget.remaining ≥ q * info.price →
        (purchase_basic_item itemB q s).2 = atomicCommit key (q * info.price) q s) ∧
    (∀ key info, findMatch (pyLowerStrip itemE) s.inventory = some (key, info) →
        ¬ info.price ≤ 20000 → ¬ s.budget.remaining ≥ info.price →
        purchase_expensive_item itemE jE s
          = (ExpRes.insufficient info.price s.budget.remaining, s)) ∧
    (∀ key info, findMatch (pyLowerStrip itemE) s.inventory = some (key, info) →
        ¬ info.price ≤ 20000 → s.budget.remaining ≥ info.price →
        (purchase_expensive_item itemE jE s).2 = atomicCommit key info.price 1 s) ∧
    (¬ s.budget.remaining ≥ p →
        purchase_luxury_item itemL p vL jL s
          = (LuxRes.insufficient p s.budget.remaining, s)) ∧
    (s.budget.remaining ≥ p →
        (purchase_luxury_item itemL p vL jL s).2
          = { inventory := s.inventory,
              budget := { remaining := s.budget.remaining - p,
                          monthly_limit := s.budget.monthly_limit } }) := by
  refine ⟨?_, ?_, ?_, ?_, ?_, ?_⟩
  · intro key info hf hlt
    unfold purchase_basic_item
    rw [hf]
    simp [if_neg hlt]
  · intro key info hf hge
    unfold purchase_basic_item atomicCommit
    rw [hf]
    simp [if_pos hge]
  · intro key info hf hgt hlt
    unfold purchase_expensive_item
    rw [hf]
    simp [if_neg hgt, if_neg hlt]
  · intro key info hf hgt hge
    unfold purchase_expensive_item atomicCommit
    rw [hf]
    simp [if_neg hgt, if_pos hge]
  · intro hlt
    unfold purchase_luxury_item
    simp [if_neg hlt]
  · intro hge
    unfold purchase_luxury_item
    simp [if_pos hge]

/-- Witness for `C2_no_partial_application`: a basic order of 10000 pens
($85000.00) and a $6000.00 luxury order both fail the $5000.00 funds check,
return the insufficient outcome, and leave the seeded state untouched. -/
theorem C2_no_partial_application_witness :
    purchase_basic_item "pens" 10000 initState
      = (BasicRes.insufficient 8500000 500000, initState) ∧
    purchase_luxury_item "yacht" 600000 "v" "j" initState
      = (LuxRes.insufficient 600000 500000, initState) := by
  have h := C2_no_partial_application initState "pens" "desk" "yacht" "jE" "v" "jL" 10000 600000
  constructor
  · exact (h.1 "pens" ⟨200, 850⟩ (by decide) (by decide)).trans (by decide)
  · exact (h.2.2.2.2.1 (by decide)).trans (by decide)

/-- Claim C3 is false as stated: after the first "executive desk" purchase
commits (remaining = $2500.01, stock 0), the second `purchase_expensive_item`
call is not rejected — the lookup ignores stock, the funds check passes, and
the call returns a success, debiting the budget to $0.02. -/
theorem C3_counterexample :
    (purchase_expensive_item "executive desk" "setup" initState).2.budget.remaining
      = 250001 ∧
    (purchase_expensive_item "executive desk" "first"
        (purchase_expensive_item "executive desk" "setup" initState).2).1
      = ExpRes.success "executive desk" 249999 "first" 2 ∧
    ¬ (purchase_expensive_item "executive desk" "first"
        (purchase_expensive_item "executive desk" "setup" initState).2).2.budget.remaining
      = 250001 := by
  refine ⟨by decide, by decide, by decide⟩

/-- Claim C3 (amended): from the seeded state, the first approved
"executive desk" purchase leaves remaining = $2500.01 and stock 0; the second
`purchase_expensive_item` call for the same item then also commits (no stock
check anywhere), returning success, leaving remaining = $0.02, the monthly
limit untouched, and the item's stock at −1. -/
theorem C3_amended_second_desk_purchase_commits :
    stockOf "executive desk" (purchase_expensive_item "executive desk" "setup" initState).2
      = some 0 ∧
    (purchase_expensive_item "executive desk" "again"
        (purchase_expensive_item "executive desk" "setup" initState).2).1
      = ExpRes.success "executive desk" 249999 "again" 2 ∧
    (purchase_expensive_item "executive desk" "again"
        (purchase_expensive_item "executive desk" "setup" initState).2).2.budget.remaining
      = 2 ∧
    (purchase_expensive_item "executive desk" "again"
        (purchase_expensive_item "executive desk" "setup" initState).2).2.budget.monthly_limit
      = 500000 ∧
    stockOf "executive desk"
        (purchase_expensive_item "executive desk" "again"
          (purchase_expensive_item "executive desk" "setup" initState).2).2
      = some (-1) := by
  refine ⟨by decide, by decide, by decide, by decide, by decide⟩

/-- Claim C4 is false as stated: a negative quantity is not rejected —
`purchase_basic_item("pens", -1)` passes the funds check and mutates the
ledger, crediting $8.50 to the budget and raising the pens stock to 201; a
negative luxury price likewise credits the budget. -/
theorem C4_counterexample :
    (purchase_basic_item "pens" (-1) initState).2 ≠ initState ∧
    (purchase_basic_item "pens" (-1) initState).2.budget.remaining = 500850 ∧
    stockOf "pens" (purchase_basic_item "pens" (-1) initState).2 = some 201 ∧
    (purchase_luxury_item "rug" (-1000) "v" "j" initState).2.budget.remaining = 501000 := by
  refine ⟨by decide, by decide, by decide, by decide⟩

/-- Claim C4 (amended): there is no parameter validation.  A negative
quantity passed to `purchase_basic_item` (on a matched item with nonnegative
price, from a nonnegative budget) makes the computed total cost nonpositive,
so the funds check passes and the mutation is applied — the budget is
credited and the stock incremented; a negative price passed to
`purchase_luxury_item` likewise commits and strictly increases the budget. -/
theorem C4_amended_negative_params_commit (s : LedgerState) (itemB itemL vL jL : String)
    (q p : Int) :
    (∀ key info, findMatch (pyLowerStrip itemB) s.inventory = some (key, info) →
      q < 0 → 0 ≤ info.price → 0 ≤ s.budget.remaining →
      (purchase_basic_item itemB q s).1
          = BasicRes.success itemB q (q * info.price) (s.budget.remaining - q * info.price) ∧
        (purchase_basic_item itemB q s).2 = atomicCommit key (q * info.price) q s ∧
        s.budget.remaining ≤ (purchase_basic_item itemB q s).2.budget.remaining) ∧
    (p < 0 → 0 ≤ s.budget.remaining →
      (purchase_luxury_item itemL p vL jL s).1
          = LuxRes.success itemL vL p jL (s.budget.remaining - p) ∧
        s.budget.remaining < (purchase_luxury_item itemL p vL jL s).2.budget.remaining) := by
  constructor
  · intro key info hf hq hp hb
    have hc : q * info.price ≤ 0 := by nlinarith
    have hge : s.budget.remaining ≥ q * info.price := by linarith
    refine ⟨?_, ?_, ?_⟩
    · unfold purchase_basic_item
      rw [hf]
      simp [if_pos hge]
    · unfold purchase_basic_item atomicCommit
      rw [hf]
      simp [if_pos hge]
    · unfold purchase_basic_item
      rw [hf]
      simp only [if_pos hge]
      linarith
  · intro hp hb
    have hge : s.budget.remaining ≥ p := by linarith
    refine ⟨?_, ?_⟩
    · unfold purchase_luxury_item
      simp [if_pos hge]
    · unfold purchase_luxury_item
      simp only [if_pos hge]
      linarith

/-- Witness for `C4_amended_negative_params_commit` at the concrete seeded
state. -/
theorem C4_amended_negative_params_commit_witness :
    (purchase_basic_item "pens" (-1) initState).1
      = BasicRes.success "pens" (-1) (-850) 500850 ∧
    initState.budget.remaining <
      (purchase_luxury_item "rug" (-1000) "v" "j" initState).2.budget.remaining := by
  have h := C4_amended_negative_params_commit initState "pens" "rug" "v" "j" (-1) (-1000)
  constructor
  · exact ((h.1 "pens" ⟨200, 850⟩ (by decide) (by decide) (by decide) (by decide)).1).trans
      (by decide)
  · exact (h.2 (by decide) (by decide)).2

/-- After `adjustStock`, the adjusted key's entry has its stock lowered by
`d`; lookup of that key sees exactly that. -/
theorem lookup_adjustStock (key : String) (d : Int) (inv : List (String × Item)) :
    (adjustStock key d inv).lookup key
      = (inv.lookup key).map fun it => { it with stock := it.stock - d } := by
  induction inv with
  | nil => rfl
  | cons kv rest ih =>
    obtain ⟨k0, it0⟩ := kv
    by_cases he : k0 = key
    · subst he
      simp [adjustStock, List.lookup]
    · have hb : (key == k0) = false := beq_eq_false_iff_ne.mpr (Ne.symm he)
      simp [adjustStock, he, List.lookup, hb, ih]

/-- Claim C5 (request/decision machinery modelled from the spec: the
Orchestrator and its terminal-decision store live in the humanlayer SDK, not
under `src/`): delivering a request whose id already has a terminal decision
returns the identical stored result and performs no further ledger mutation,
so a re-delivered purchase debits the budget and decrements stock only once. -/
theorem C5_redelivery_idempotent (r : Request) (st : OrchState) :
    deliver r (deliver r st).2 = deliver r st := by
  cases h : st.decided.lookup r.id with
  | some res => simp [deliver, h]
  | none => simp [deliver, h, List.lookup]

/-- Claim C6: for a fixed item, price, quantity and starting state, the
free-text justification (resp. emergency reason) never influences the
success-or-failure decision or the final ledger: two runs that differ only in
that text end in identical `COMPANY_BUDGET` and `INVENTORY` and take the same
branch — only the echoed message text can differ. -/
theorem C6_justification_noninterference (s : LedgerState) (item v : String) (p a : Int)
    (j1 j2 r1 r2 : String) :
    (purchase_expensive_item item j1 s).2 = (purchase_expensive_item item j2 s).2 ∧
    ((purchase_expensive_item item j1 s).1).branch
      = ((purchase_expensive_item item j2 s).1).branch ∧
    (purchase_luxury_item item p v j1 s).2 = (purchase_luxury_item item p v j2 s).2 ∧
    ((purchase_luxury_item item p v j1 s).1).branch
      = ((purchase_luxury_item item p v j2 s).1).branch ∧
    (emergency_budget_increase a r1 s).2 = (emergency_budget_increase a r2 s).2 := by
  refine ⟨?_, ?_, ?_, ?_, rfl⟩
  · rw [expensive_snd, expensive_snd]
  · unfold purchase_expensive_item
    cases findMatch (pyLowerStrip item) s.inventory with
    | none => rfl
    | some kv =>
      obtain ⟨key, info⟩ := kv
      by_cases h1 : info.price ≤ 20000 <;> by_cases h2 : s.budget.remaining ≥ info.price <;>
        simp [h1, h2, ExpRes.branch]
  · rw [luxury_snd, luxury_snd]
  · unfold purchase_luxury_item
    by_cases h : s.budget.remaining ≥ p <;> simp [h, LuxRes.branch]

/-- Claim C9: the shared item lookup lower-cases and strips the query and
returns the first catalog entry, in dict insertion order, whose key the
normalized query matches by substring comparison in either direction; if no
key matches, the tools report not-found and leave the state unchanged. -/
theorem C9_lookup_first_match (item : String) (s : LedgerState) (q : Int) (j : String) :
    (∀ key info, findMatch (pyLowerStrip item) s.inventory = some (key, info) →
      ∃ i : Nat, s.inventory.get? i = some (key, info) ∧
        keyMatch (pyLowerStrip item) key = true ∧
        ∀ jdx : Nat, jdx < i → ∀ kv, s.inventory.get? jdx = some kv →
          keyMatch (pyLowerStrip item) kv.1 = false) ∧
    (findMatch (pyLowerStrip item) s.inventory = none →
      (∀ kv ∈ s.inventory, keyMatch (pyLowerStrip item) kv.1 = false) ∧
      check_inventory item s = InvRes.notFound item ∧
      purchase_basic_item item q s = (BasicRes.notFound item, s) ∧
      purchase_expensive_item item j s = (ExpRes.notFound item, s)) := by
  constructor
  · intro key info hf
    exact findMatch_first hf
  · intro hn
    refine ⟨findMatch_eq_none hn, ?_, ?_, ?_⟩
    · unfold check_inventory
      rw [hn]
    · unfold purchase_basic_item
      rw [hn]
    · unfold purchase_expensive_item
      rw [hn]

/-- Witness for `C9_lookup_first_match`: "yacht" matches no catalog key, so
the tools report not-found and the seeded state is untouched. -/
theorem C9_lookup_first_match_witness :
    purchase_basic_item "yacht" 5 initState = (BasicRes.notFound "yacht", initState) ∧
    check_inventory "yacht" initState = InvRes.notFound "yacht" := by
  have h := (C9_lookup_first_match "yacht" initState 5 "j").2 (by decide)
  exact ⟨h.2.2.1, h.2.1⟩

/-- Claim C10: `purchase_expensive_item` has no quantity parameter and buys
exactly one unit: on a matched catalog entry costing more than $200 with
sufficient budget it debits `remaining` by exactly the unit price, leaves the
monthly limit alone, and lowers that entry's stock by exactly 1; on a matched
entry costing at most $200 it returns the redirect outcome and changes
nothing. -/
theorem C10_expensive_one_unit (s : LedgerState) (item j : String) (key : String)
    (info : Item) (hf : findMatch (pyLowerStrip item) s.inventory = some (key, info)) :
    (info.price ≤ 20000 →
      purchase_expensive_item item j s = (ExpRes.redirect item info.price, s)) ∧
    (¬ info.price ≤ 20000 → s.budget.remaining ≥ info.price →
      (purchase_expensive_item item j s).1
          = ExpRes.success item info.price j (s.budget.remaining - info.price) ∧
        (purchase_expensive_item item j s).2.budget.remaining
          = s.budget.remaining - info.price ∧
        (purchase_expensive_item item j s).2.budget.monthly_limit
          = s.budget.monthly_limit ∧
        stockOf key (purchase_expensive_item item j s).2
          = Option.map (fun n => n - 1) (stockOf key s)) := by
  constructor
  · intro hle
    unfold purchase_expensive_item
    rw [hf]
    simp [if_pos hle]
  · intro hgt hge
    have hinv : (purchase_expensive_item item j s).2.inventory
        = adjustStock key 1 s.inventory := by
      unfold purchase_expensive_item
      rw [hf]
      simp [if_neg hgt, if_pos hge]
    refine ⟨?_, ?_, ?_, ?_⟩
    · unfold purchase_expensive_item
      rw [hf]
      simp [if_neg hgt, if_pos hge]
    · unfold purchase_expensive_item
      rw [hf]
      simp [if_neg hgt, if_pos hge]
    · unfold purchase_expensive_item
      rw [hf]
      simp [if_neg hgt, if_pos hge]
    · unfold stockOf
      rw [hinv, lookup_adjustStock]
      cases s.inventory.lookup key <;> rfl

/-- Witness for `C10_expensive_one_unit`: pens ($8.50 ≤ $200) are redirected
with no change; a gaming chair ($1299.99) commits, leaving $3700.01 and
stock 1. -/
theorem C10_expensive_one_unit_witness :
    purchase_expensive_item "pens" "because" initState
      = (ExpRes.redirect "pens" 850, initState) ∧
    (purchase_expensive_item "gaming chair" "because" initState).2.budget.remaining
      = 370001 ∧
    stockOf "gaming chair" (purchase_expensive_item "gaming chair" "because" initState).2
      = some 1 := by
  have h1 := (C10_expensive_one_unit initState "pens" "because" "pens" ⟨200, 850⟩
    (by decide)).1 (by decide)
  have h2 := (C10_expensive_one_unit initState "gaming chair" "because" "gaming chair"
    ⟨2, 129999⟩ (by decide)).2 (by decide) (by decide)
  refine ⟨h1, h2.2.1.trans (by decide), ?_⟩
  rw [h2.2.2.2]
  decide

/-- Witness for `C5_redelivery_idempotent`: a concrete pens order delivered
twice under the same request id. -/
theorem C5_redelivery_idempotent_witness :
    deliver ⟨1, Op.basic "pens" 2⟩ (deliver ⟨1, Op.basic "pens" 2⟩ ⟨initState, []⟩).2
      = deliver ⟨1, Op.basic "pens" 2⟩ ⟨initState, []⟩ :=
  C5_redelivery_idempotent ⟨1, Op.basic "pens" 2⟩ ⟨initState, []⟩

/-- Witness for `C6_justification_noninterference`: two gaming-chair
purchases differing only in justification end in the same state. -/
theorem C6_justification_noninterference_witness :
    (purchase_expensive_item "gaming chair" "for morale" initState).2
      = (purchase_expensive_item "gaming chair" "client optics" initState).2 :=
  (C6_justification_noninterference initState "gaming chair" "v" 0 0 "for morale"
    "client optics" "r1" "r2").1
